import Mathlib

/-!
Shallow embedding of the pycryptobot exchange-gateway core:
`models/exchange/coinbase_pro/api.py` and `models/config/binance_parser.py`.
Python strings that are inspected character by character are modelled as
`List Char`; monetary amounts are modelled as rationals; HTTP traffic is
modelled by passing the decoded response (status code and JSON fields) as an
explicit argument.
-/

namespace PyCryptoBot

/-- Python's `s.split(c)`: splits on every occurrence of `c`, keeping empty
segments, and always returns at least one segment. -/
def pySplit (c : Char) (s : List Char) : List (List Char) :=
  s.foldr
    (fun x acc =>
      if x = c then [] :: acc
      else
        match acc with
        | [] => [[x]]
        | a :: rest => (x :: a) :: rest)
    [[]]

/-- Worker for `pyReplace`; the fuel argument makes the recursion structural
(it is always called with fuel at least the length of the string, and each
step consumes at least one character). -/
def pyReplaceAux (pat : List Char) : Nat → List Char → List Char
  | 0, s => s
  | _, [] => []
  | fuel + 1, x :: xs =>
    if pat ≠ [] ∧ pat.isPrefixOf (x :: xs) then
      pyReplaceAux pat fuel ((x :: xs).drop pat.length)
    else
      x :: pyReplaceAux pat fuel xs

/-- Python's `s.replace(pat, "")`: removes every non-overlapping occurrence of
`pat`, scanning left to right. -/
def pyReplace (pat : List Char) (s : List Char) : List Char :=
  pyReplaceAux pat s.length s

/-- Decimal-place count used by the quantizers: `len(str(x).split(".")[1])`
when the string contains a dot, else `0`
(`api.py`, `marketBaseIncrement` / `marketQuoteIncrement`). -/
def nb_digits (s : List Char) : Nat :=
  if '.' ∈ s then ((pySplit '.' s).getD 1 []).length else 0

namespace Binance

/-- Character class `[0-9A-Z]` of the Binance market regex. -/
def isSymbolChar (c : Char) : Bool :=
  decide (('0' ≤ c ∧ c ≤ '9') ∨ ('A' ≤ c ∧ c ≤ 'Z'))

/-- `isMarketValid` from `binance_parser.py`: regex `^[0-9A-Z]{5,12}$`. -/
def isMarketValid (m : List Char) : Bool :=
  decide (5 ≤ m.length) && decide (m.length ≤ 12) && m.all isSymbolChar

/-- Quote-currency priority list from `parseMarket` (`binance_parser.py`),
in source order, duplicates included. -/
def quote_currencies : List (List Char) :=
  (["BTC", "BNB", "ETH", "USDT", "TUSD", "BUSD", "DAX", "NGN", "RUB", "TRY",
    "EUR", "GBP", "ZAR", "UAH", "DAI", "BIDR", "AUD", "US", "NGN", "BRL",
    "BVND", "VAI"]).map String.toList

/-- The `for qc in quote_currencies: ... break` loop of `parseMarket`: the
first `qc` that is a suffix of the market wins, `base` is the market with
every occurrence of `qc` removed; if none matches, the defaults
`base_currency = BTC`, `quote_currency = GBP` survive. -/
def findQuoteLoop : List (List Char) → List Char → (List Char × List Char)
  | [], _ => (("BTC").toList, ("GBP").toList)
  | qc :: rest, m =>
    if qc.isSuffixOf m then (pyReplace qc m, qc) else findQuoteLoop rest m

/-- `parseMarket` from `binance_parser.py`: validates the symbol grammar,
resolves (base, quote) by the suffix loop, then checks that the lengths
reconstruct the symbol. -/
def parseMarket (m : List Char) : Except String (List Char × List Char × List Char) :=
  if ¬ isMarketValid m then .error ("Binance market invalid: " ++ m.asString)
  else
    let bq := findQuoteLoop quote_currencies m
    if m.length ≠ bq.1.length + bq.2.length then .error "Binance market error."
    else .ok (m, bq.1, bq.2)

/-- First quote currency in priority order that is a suffix of the symbol
(the specification's description of the loop's choice). -/
def chosenQuote (m : List Char) : Option (List Char) :=
  quote_currencies.find? (fun qc => qc.isSuffixOf m)

end Binance

namespace CoinbasePro

/-- Character class `[1-9A-Z]` of the Coinbase Pro market regex (note: `0`
is excluded). -/
def isPairChar (c : Char) : Bool :=
  decide (('1' ≤ c ∧ c ≤ '9') ∨ ('A' ≤ c ∧ c ≤ 'Z'))

/-- `AuthAPIBase._isMarketValid`: regex `^[1-9A-Z]{2,5}\-[1-9A-Z]{2,5}$`. -/
def _isMarketValid (m : List Char) : Bool :=
  match pySplit '-' m with
  | [a, b] =>
    decide (2 ≤ a.length) && decide (a.length ≤ 5) && a.all isPairChar &&
    decide (2 ≤ b.length) && decide (b.length ≤ 5) && b.all isPairChar
  | _ => false

/-- `AuthAPI.marketBaseIncrement`: if the product response has no
`base_increment` column the amount passes through unchanged, otherwise the
amount is floored to the increment's decimal places. -/
def marketBaseIncrement (product : List (String × String)) (amount : ℚ) : ℚ :=
  match product.lookup "base_increment" with
  | none => amount
  | some base_increment =>
    let nb := nb_digits base_increment.toList
    (⌊amount * 10 ^ nb⌋ : ℚ) / 10 ^ nb

/-- `AuthAPI.marketQuoteIncrement`: same computation with the
`quote_increment` column. -/
def marketQuoteIncrement (product : List (String × String)) (amount : ℚ) : ℚ :=
  match product.lookup "quote_increment" with
  | none => amount
  | some quote_increment =>
    let nb := nb_digits quote_increment.toList
    (⌊amount * 10 ^ nb⌋ : ℚ) / 10 ^ nb

/-- Decoded HTTP response as seen by `AuthAPI.authAPI` after `resp.json()`:
the status code and the fields of the decoded JSON object (string-valued
fields are the only ones the error path inspects). -/
structure HTTPResponse where
  statusCode : Nat
  jsonFields : List (String × String)
deriving DecidableEq

/-- Error-message extraction in `AuthAPI.authAPI`: the `msg` field if
present, else the `message` field, else the empty string. -/
def respMessage (r : HTTPResponse) : String :=
  match r.jsonFields.lookup "msg" with
  | some v => v
  | none =>
    match r.jsonFields.lookup "message" with
    | some v => v
    | none => ""

/-- Observable outcome of `AuthAPI.authAPI`. `raised` is an exception that
propagates to the caller (the plain `Exception` raised on error statuses is
not caught by the transport `except` clauses, and `TypeError`s are raised
before the `try`); `emptyTimestampExpired` is the `return {}` after the
clock-skew log line; `emptyLoggedError` is the `return pd.DataFrame()`
after the generic error log line; `dataFrame` is the 200 data path. -/
inductive APIOutcome where
  | raised (msg : String)
  | emptyTimestampExpired (logMsg : String)
  | emptyLoggedError (logMsg : String)
  | dataFrame (fields : List (String × String))
deriving DecidableEq

/-- `AuthAPI.authAPI` (`api.py` lines 583-666), with the network exchange
replaced by the decoded response `resp`. The method whitelist check, the
timestamp-expired branch, the non-200 branch with its
`die_on_api_error or status == 401` abort condition, and the 200 data path
are translated in source order. -/
def authAPI (die_on_api_error : Bool) (api_url method uri : String)
    (resp : HTTPResponse) : APIOutcome :=
  if ¬ (method = "DELETE" ∨ method = "GET" ∨ method = "POST") then
    .raised "Method not DELETE, GET or POST."
  else
    let resp_message := respMessage resp
    if resp.statusCode = 401 ∧ resp_message = "request timestamp expired" then
      .emptyTimestampExpired
        ("Error: " ++ method ++ " (" ++ toString resp.statusCode ++ ") " ++
          api_url ++ uri ++ " - " ++ resp_message ++
          " (hint: check your system time is using NTP)")
    else if resp.statusCode ≠ 200 then
      if die_on_api_error || resp.statusCode = 401 then
        .raised
          (method ++ " (" ++ toString resp.statusCode ++ ") " ++ api_url ++
            uri ++ " - " ++ resp_message)
      else
        .emptyLoggedError
          ("error: " ++ method ++ " (" ++ toString resp.statusCode ++ ") " ++
            api_url ++ uri ++ " - " ++ resp_message)
    else
      .dataFrame resp.jsonFields

/-- Observable outcome of `AuthAPI.handle_api_error`: either the process is
terminated via `SystemExit`, or the error is logged and an empty DataFrame
is returned. -/
inductive HandleOutcome where
  | systemExit (msg : String)
  | emptyResult (logMsg : String)
deriving DecidableEq

/-- `AuthAPI.handle_api_error` (`api.py` lines 668-682): transport errors
(`ConnectionError`, `HTTPError`, `Timeout`, `JSONDecodeError`) terminate the
process under `die_on_api_error`, otherwise they are logged and an empty
DataFrame is returned. -/
def handle_api_error (debug die_on_api_error : Bool) (err reason api_url : String) :
    HandleOutcome :=
  if debug then
    if die_on_api_error then .systemExit err
    else .emptyResult err
  else
    if die_on_api_error then .systemExit (reason ++ ": " ++ api_url)
    else .emptyResult (reason ++ ": " ++ api_url)

/-- Row of the non-open orders DataFrame in `AuthAPI.getOrders` right after
the float casts (line 299-305 of `api.py`): the fields the price
computation reads and writes, as rationals. -/
structure OrderRow where
  market : String
  action : String
  filled_size : ℚ
  executed_value : ℚ
  fill_fees : ℚ
  price : ℚ
deriving DecidableEq

/-- The price lambda of `AuthAPI.getOrders` (lines 309-315):
`(executed_value * 100) / (filled_size * 100)` when `filled_size > 0`, else
`0` — the guard prevents the division by zero. -/
def orderPrice (executed_value filled_size : ℚ) : ℚ :=
  if filled_size > 0 then (executed_value * 100) / (filled_size * 100) else 0

/-- The `df["price"] = df.copy().apply(lambda row: ..., axis=1)` step of
`AuthAPI.getOrders` for non-open orders: the price lambda applied to every
row. -/
def computeOrderPrices (rows : List OrderRow) : List OrderRow :=
  rows.map (fun r => { r with price := orderPrice r.executed_value r.filled_size })

/-- Time-indexed non-open order rows of `AuthAPI.getOrders`: after the
price lambda (lines 309-315) the frame is turned into a time series keyed
by the `created_at` timestamp (`pd.DatetimeIndex`, lines 388-392), so each
row is a creation timestamp paired with its normalized record. -/
def indexedOrderPrices (rows : List (Nat × OrderRow)) : List (Nat × OrderRow) :=
  rows.map (fun p =>
    (p.1, { p.2 with price := orderPrice p.2.executed_value p.2.filled_size }))

/-- The `df = df.iloc[::-1].reset_index()` step of `AuthAPI.getOrders`
(lines 409-410), applied after the price normalization: the newest-first
order rows delivered by the exchange are reversed to oldest-first. -/
def ordersNormalized (rows : List (Nat × OrderRow)) : List (Nat × OrderRow) :=
  (indexedOrderPrices rows).reverse

/-- Account row of the `GET /accounts` response used by
`AuthAPI.getAccounts`; the balance is the textual field the filter
compares. -/
structure Account where
  id : String
  currency : String
  balance : String
  available : String
  hold : String
deriving DecidableEq

/-- `AuthAPI.getAccounts` (`api.py` lines 126-143): a failed call and an
empty response both yield an empty result; otherwise the rows whose
`balance` equals the literal string `0.0000000000000000` are dropped. -/
def getAccounts (resp : Except String (List Account)) : List Account :=
  match resp with
  | .error _ => []
  | .ok df =>
    if df.length = 0 then []
    else df.filter (fun a => a.balance ≠ "0.0000000000000000")

/-- Value of a digit string, when every character is a digit and the string
is non-empty. -/
def digitsToNat? (s : List Char) : Option Nat :=
  if s = [] then none
  else if s.all Char.isDigit then
    some (s.foldl (fun acc c => acc * 10 + (c.toNat - 48)) 0)
  else none

/-- Numeric value of a non-negative decimal string such as an account
balance, following its usual reading: an integer part, optionally a dot and
a fractional part. Used to state what a balance of zero means. -/
def decimalValue? (s : String) : Option ℚ :=
  match pySplit '.' s.toList with
  | [i] => (digitsToNat? i).map (fun n => (n : ℚ))
  | [i, f] =>
    match digitsToNat? i, digitsToNat? f with
    | some n, some m => some ((n : ℚ) + (m : ℚ) / 10 ^ f.length)
    | _, _ => none
  | _ => none

/-- Module constant `SUPPORTED_GRANULARITY` of `api.py`. -/
def SUPPORTED_GRANULARITY : List Nat := [60, 300, 900, 3600, 21600, 86400]

/-- Module constant `FREQUENCY_EQUIVALENTS` of `api.py`. -/
def FREQUENCY_EQUIVALENTS : List String := ["T", "5T", "15T", "H", "6H", "D"]

/-- Module constant `MINIMUM_TRADE_AMOUNT` of `api.py`. -/
def MINIMUM_TRADE_AMOUNT : ℚ := 10

/-- Resampling-frequency lookup of `PublicAPI.getHistoricalData`:
`FREQUENCY_EQUIVALENTS[SUPPORTED_GRANULARITY.index(granularity)]` with the
`except` fallback to the daily code. -/
def freqOf (granularity : Nat) : String :=
  match SUPPORTED_GRANULARITY.indexOf? granularity with
  | some i => FREQUENCY_EQUIVALENTS.getD i "D"
  | none => "D"

/-- Raw candle row of the `GET /products/market/candles` response (columns
`epoch, low, high, open, close, volume`; `open`/`close` are reserved words
in Lean, hence the trailing underscore). -/
structure RawCandle where
  epoch : Nat
  low : ℚ
  high : ℚ
  open_ : ℚ
  close_ : ℚ
  volume : ℚ
deriving DecidableEq

/-- Normalized candle row produced by `PublicAPI.getHistoricalData`: the
epoch becomes the date index and the requested market and granularity are
attached to the row. -/
structure CandleRecord where
  date : Nat
  market : String
  granularity : Nat
  low : ℚ
  high : ℚ
  open_ : ℚ
  close_ : ℚ
  volume : ℚ
deriving DecidableEq

/-- Per-row normalization of `PublicAPI.getHistoricalData`: keep the numeric
columns, index by the epoch, attach market and granularity. -/
def toCandleRecord (market : String) (granularity : Nat) (r : RawCandle) :
    CandleRecord :=
  ⟨r.epoch, market, granularity, r.low, r.high, r.open_, r.close_, r.volume⟩

/-- `PublicAPI.getHistoricalData` (`api.py` lines 692-776) with the network
exchange replaced by the decoded candle rows `resp`: market and granularity
validation, then `df.iloc[::-1]` (reversal of the newest-first response)
followed by attaching `market` and `granularity` to every row. The pandas
`DatetimeIndex` formatting is not modelled; rows keep their epoch. -/
def getHistoricalData (market : String) (granularity : Nat)
    (resp : List RawCandle) : Except String (List CandleRecord) :=
  if ¬ _isMarketValid market.toList then .error "Coinbase Pro market required."
  else if ¬ granularity ∈ SUPPORTED_GRANULARITY then
    .error ("Granularity options: 60, 300, 900, 3600, 21600, 86400")
  else .ok ((resp.reverse).map (toCandleRecord market granularity))

end CoinbasePro

/-! Byte-level primitives used by the request signer: UTF-8 encoding,
base64, SHA-256 and HMAC. Bytes are naturals below 256. -/

/-- UTF-8 encoding of a string (Python's `str.encode()`). -/
def utf8Bytes (s : String) : List Nat :=
  (s.toList.map (fun c =>
    let n := c.toNat
    if n < 128 then [n]
    else if n < 2048 then [192 + n / 64, 128 + n % 64]
    else if n < 65536 then [224 + n / 4096, 128 + (n / 64) % 64, 128 + n % 64]
    else [240 + n / 262144, 128 + (n / 4096) % 64, 128 + (n / 64) % 64,
      128 + n % 64])).flatten

/-- Standard base64 alphabet. -/
def b64Alphabet : List Char :=
  ("ABCDEFGHIJKLMNOPQRSTUVWXYZabcdefghijklmnopqrstuvwxyz0123456789+/").toList

/-- Six-bit value of a base64 alphabet character; padding and foreign
characters are discarded, as Python's `base64.b64decode` does by default. -/
def b64CharVal? (c : Char) : Option Nat :=
  (b64Alphabet.indexOf? c).map (fun i => i)

/-- Packs a list of six-bit values into bytes (base64 decoding after the
character-to-value step). -/
def b64PackVals : List Nat → List Nat
  | a :: b :: c :: d :: rest =>
    (a * 4 + b / 16) :: ((b % 16) * 16 + c / 4) :: ((c % 4) * 64 + d) ::
      b64PackVals rest
  | [a, b] => [a * 4 + b / 16]
  | [a, b, c] => [a * 4 + b / 16, (b % 16) * 16 + c / 4]
  | _ => []

/-- Python's `base64.b64decode` on a string. -/
def b64decode (s : String) : List Nat :=
  b64PackVals (s.toList.filterMap b64CharVal?)

/-- Base64 character of a six-bit value. -/
def b64CharOf (n : Nat) : Char := b64Alphabet.getD n 'A'

/-- Python's `base64.b64encode` on bytes, as characters. -/
def b64encodeBytes : List Nat → List Char
  | x :: y :: z :: rest =>
    b64CharOf (x / 4) :: b64CharOf ((x % 4) * 16 + y / 16) ::
      b64CharOf ((y % 16) * 4 + z / 64) :: b64CharOf (z % 64) ::
      b64encodeBytes rest
  | [x, y] =>
    [b64CharOf (x / 4), b64CharOf ((x % 4) * 16 + y / 16),
      b64CharOf ((y % 16) * 4), '=']
  | [x] => [b64CharOf (x / 4), b64CharOf ((x % 4) * 16), '=', '=']
  | [] => []

/-- Truncation to a 32-bit word. -/
def w32 (n : Nat) : Nat := n % 4294967296

/-- Right rotation of a 32-bit word by `n` bits. -/
def rotr (n x : Nat) : Nat := w32 (x / 2 ^ n + x % 2 ^ n * 2 ^ (32 - n))

/-- Logical right shift of a 32-bit word by `n` bits. -/
def shr (n x : Nat) : Nat := x / 2 ^ n

/-- SHA-256 `Ch` function. -/
def sha256Ch (x y z : Nat) : Nat := (x &&& y) ^^^ ((x ^^^ 4294967295) &&& z)

/-- SHA-256 `Maj` function. -/
def sha256Maj (x y z : Nat) : Nat := (x &&& y) ^^^ (x &&& z) ^^^ (y &&& z)

/-- SHA-256 big sigma 0. -/
def bigSigma0 (x : Nat) : Nat := rotr 2 x ^^^ rotr 13 x ^^^ rotr 22 x

/-- SHA-256 big sigma 1. -/
def bigSigma1 (x : Nat) : Nat := rotr 6 x ^^^ rotr 11 x ^^^ rotr 25 x

/-- SHA-256 small sigma 0. -/
def smallSigma0 (x : Nat) : Nat := rotr 7 x ^^^ rotr 18 x ^^^ shr 3 x

/-- SHA-256 small sigma 1. -/
def smallSigma1 (x : Nat) : Nat := rotr 17 x ^^^ rotr 19 x ^^^ shr 10 x

/-- SHA-256 round constants. -/
def sha256K : List Nat :=
  [1116352408, 1899447441, 3049323471, 3921009573, 961987163,
   1508970993, 2453635748, 2870763221, 3624381080, 310598401,
   607225278, 1426881987, 1925078388, 2162078206, 2614888103,
   3248222580, 3835390401, 4022224774, 264347078, 604807628,
   770255983, 1249150122, 1555081692, 1996064986, 2554220882,
   2821834349, 2952996808, 3210313671, 3336571891, 3584528711,
   113926993, 338241895, 666307205, 773529912, 1294757372,
   1396182291, 1695183700, 1986661051, 2177026350, 2456956037,
   2730485921, 2820302411, 3259730800, 3345764771, 3516065817,
   3600352804, 4094571909, 275423344, 430227734, 506948616,
   659060556, 883997877, 958139571, 1322822218, 1537002063,
   1747873779, 1955562222, 2024104815, 2227730452, 2361852424,
   2428436474, 2756734187, 3204031479, 3329325298]

/-- SHA-256 initial hash state. -/
def sha256H0 : List Nat :=
  [1779033703, 3144134277, 1013904242, 2773480762, 1359893119,
   2600822924, 528734635, 1541459225]

/-- Big-endian byte expansion of a natural, `k` bytes wide. -/
def bytesBE : Nat → Nat → List Nat
  | 0, _ => []
  | k + 1, n => bytesBE k (n / 256) ++ [n % 256]

/-- SHA-256 padding: a `0x80` byte, zeros to 56 mod 64, then the bit length
as an eight-byte big-endian integer. -/
def sha256Pad (msg : List Nat) : List Nat :=
  msg ++ [128] ++ List.replicate ((119 - msg.length % 64) % 64) 0 ++
    bytesBE 8 (msg.length * 8)

/-- Big-endian 32-bit words of a byte list. -/
def toWords : List Nat → List Nat
  | b0 :: b1 :: b2 :: b3 :: rest =>
    (b0 * 16777216 + b1 * 65536 + b2 * 256 + b3) :: toWords rest
  | _ => []

/-- Worker for `chunk64`; the fuel keeps the recursion structural. -/
def chunk64Aux : Nat → List Nat → List (List Nat)
  | 0, _ => []
  | _, [] => []
  | fuel + 1, x :: xs => (x :: xs).take 64 :: chunk64Aux fuel ((x :: xs).drop 64)

/-- Splits a byte list into 64-byte blocks. -/
def chunk64 (l : List Nat) : List (List Nat) := chunk64Aux l.length l

/-- Extends a 16-word message schedule to 64 words (`fuel` = 48 steps). -/
def buildW (w : List Nat) : Nat → List Nat
  | 0 => w
  | fuel + 1 =>
    buildW
      (w ++ [w32 (smallSigma1 (w.getD (w.length - 2) 0) +
        w.getD (w.length - 7) 0 + smallSigma0 (w.getD (w.length - 15) 0) +
        w.getD (w.length - 16) 0)])
      fuel

/-- One SHA-256 compression round on the eight-word working state. -/
def sha256Round (st : List Nat) (ki wi : Nat) : List Nat :=
  let a := st.getD 0 0
  let b := st.getD 1 0
  let c := st.getD 2 0
  let d := st.getD 3 0
  let e := st.getD 4 0
  let f := st.getD 5 0
  let g := st.getD 6 0
  let h := st.getD 7 0
  let t1 := w32 (h + bigSigma1 e + sha256Ch e f g + ki + wi)
  let t2 := w32 (bigSigma0 a + sha256Maj a b c)
  [w32 (t1 + t2), a, b, c, w32 (d + t1), e, f, g]

/-- Processes one 64-byte block against the running hash state. -/
def sha256Block (state : List Nat) (block : List Nat) : List Nat :=
  let w := buildW (toWords block) 48
  let st := (sha256K.zip w).foldl (fun st p => sha256Round st p.1 p.2) state
  (state.zip st).map (fun p => w32 (p.1 + p.2))

/-- SHA-256 digest of a byte list. -/
def sha256 (msg : List Nat) : List Nat :=
  (((chunk64 (sha256Pad msg)).foldl sha256Block sha256H0).map (bytesBE 4)).flatten

/-- HMAC-SHA256 (`hmac.new(key, message, hashlib.sha256)`), block size 64
bytes. -/
def hmacSha256 (key msg : List Nat) : List Nat :=
  let k0 := if 64 < key.length then sha256 key else key
  let k := k0 ++ List.replicate (64 - k0.length) 0
  sha256 ((k.map (fun b => b ^^^ 92)) ++
    sha256 ((k.map (fun b => b ^^^ 54)) ++ msg))

namespace CoinbasePro

/-- Credential fields held by `AuthAPI` after construction. -/
structure Credentials where
  api_key : String
  api_secret : String
  api_passphrase : String
  api_url : String
deriving DecidableEq

/-- Signature computation of `AuthAPI.__call__` (`api.py` lines 104-124):
the message is the timestamp, the HTTP method, the path and the body
concatenated in that order; the HMAC key is the base64-decoded secret; the
digest is base64-encoded. The timestamp is an explicit argument because the
source samples `time.time()` at send time. -/
def signRequest (cred : Credentials) (timestamp method path_url body : String) :
    String :=
  let message := timestamp ++ method ++ path_url ++ body
  let hmac_key := b64decode cred.api_secret
  let signature := hmacSha256 hmac_key (utf8Bytes message)
  (b64encodeBytes signature).asString

/-- Header update performed by `AuthAPI.__call__`: the five headers it
merges into the request, in source order. -/
def signedHeaders (cred : Credentials) (timestamp method path_url body : String) :
    List (String × String) :=
  [("CB-ACCESS-SIGN", signRequest cred timestamp method path_url body),
   ("CB-ACCESS-TIMESTAMP", timestamp),
   ("CB-ACCESS-KEY", cred.api_key),
   ("CB-ACCESS-PASSPHRASE", cred.api_passphrase),
   ("Content-Type", "application/json")]

/-- Signature formula as the specification words it: base64-encode of the
HMAC-SHA256, keyed by the base64-decoded secret, of
timestamp then method then path then body. -/
def specSignature (cred : Credentials) (timestamp method path_url body : String) :
    String :=
  (b64encodeBytes (hmacSha256 (b64decode cred.api_secret)
    (utf8Bytes (timestamp ++ method ++ path_url ++ body)))).asString

/-- Header-name set the specification describes for the signer: signature,
timestamp, key and passphrase. -/
def specHeaderNames : List String :=
  ["CB-ACCESS-SIGN", "CB-ACCESS-TIMESTAMP", "CB-ACCESS-KEY",
   "CB-ACCESS-PASSPHRASE"]

/-- `AuthAPI.marketQuoteIncrement` including its own `GET products/market`
call: the product response is obtained through `authAPI` from the network
oracle `world`; a raised exception propagates (`error`), while both empty
results lack the `quote_increment` column and pass the amount through. -/
def marketQuoteIncrementNet (world : String → String → HTTPResponse)
    (die_on_api_error : Bool) (api_url market : String) (amount : ℚ) :
    Except String ℚ :=
  match authAPI die_on_api_error api_url "GET" ("products/" ++ market)
      (world "GET" ("products/" ++ market)) with
  | .raised m => .error m
  | .emptyTimestampExpired _ => .ok amount
  | .emptyLoggedError _ => .ok amount
  | .dataFrame fields => .ok (marketQuoteIncrement fields amount)

/-- Observable outcome of `AuthAPI.marketBuy`: a `ValueError` raised by a
pre-network validation, the empty DataFrame produced by the bare `except`
around the order placement, or the result of the `POST orders` call. -/
inductive BuyOutcome where
  | valueError (msg : String)
  | emptyOnException
  | result (r : APIOutcome)
deriving DecidableEq

/-- `AuthAPI.marketBuy` (`api.py` lines 430-472) against the network oracle
`world`: market validation and the minimum-trade-amount check run before
the `try` block; inside it, the funds are quantized via
`marketQuoteIncrement` (one `GET` call) and the order is placed with a
`POST` call, any exception yielding an empty DataFrame. -/
def marketBuy (world : String → String → HTTPResponse)
    (die_on_api_error : Bool) (api_url market : String)
    (quote_quantity : ℚ) : BuyOutcome :=
  if ¬ _isMarketValid market.toList then
    .valueError "Coinbase Pro market is invalid."
  else if quote_quantity < MINIMUM_TRADE_AMOUNT then
    .valueError "Trade amount is too small (>= 10)."
  else
    match marketQuoteIncrementNet world die_on_api_error api_url market
        quote_quantity with
    | .error _ => .emptyOnException
    | .ok _funds =>
      match authAPI die_on_api_error api_url "POST" "orders"
          (world "POST" "orders") with
      | .raised _ => .emptyOnException
      | r => .result r

end CoinbasePro

/-! Helper lemmas shared by the claim theorems. -/

/-- Unfolding lemma for `pySplit` on a cons cell. -/
theorem pySplit_cons (c x : Char) (xs : List Char) :
    pySplit c (x :: xs) =
      if x = c then [] :: pySplit c xs
      else
        match pySplit c xs with
        | [] => [[x]]
        | a :: rest => (x :: a) :: rest := rfl

/-- A string without the separator splits into itself. -/
theorem pySplit_eq_singleton (c : Char) (s : List Char) (h : c ∉ s) :
    pySplit c s = [s] := by
  induction s with
  | nil => rfl
  | cons x xs ih =>
    have hx : ¬ x = c := fun e => h (e ▸ List.mem_cons_self x xs)
    have hxs : c ∉ xs := fun hm => h (List.mem_cons_of_mem _ hm)
    rw [pySplit_cons, if_neg hx, ih hxs]

/-- Splitting a string of the form `ip ++ c :: fp` where `ip` is free of the
separator peels off `ip` as the first segment. -/
theorem pySplit_sep (c : Char) (ip fp : List Char) (h : c ∉ ip) :
    pySplit c (ip ++ c :: fp) = ip :: pySplit c fp := by
  induction ip with
  | nil => rw [List.nil_append, pySplit_cons, if_pos rfl]
  | cons x xs ih =>
    have hx : ¬ x = c := fun e => h (e ▸ List.mem_cons_self x xs)
    have hxs : c ∉ xs := fun hm => h (List.mem_cons_of_mem _ hm)
    rw [List.cons_append, pySplit_cons, if_neg hx, ih hxs]

/-- The flooring quantization never exceeds the amount. -/
theorem floor_quantize_le (a : ℚ) (n : Nat) :
    (⌊a * 10 ^ n⌋ : ℚ) / 10 ^ n ≤ a := by
  have hk : (0 : ℚ) < 10 ^ n := by positivity
  rw [div_le_iff₀ hk]
  exact Int.floor_le _

/-- Decimal-place count of a well-formed decimal string: the length of the
fractional part. -/
theorem nb_digits_decimal (ip fp : List Char) (hip : '.' ∉ ip)
    (hfp : '.' ∉ fp) : nb_digits (ip ++ '.' :: fp) = fp.length := by
  have hmem : '.' ∈ ip ++ '.' :: fp :=
    List.mem_append_right ip (List.mem_cons_self _ _)
  rw [nb_digits, if_pos hmem, pySplit_sep '.' ip fp hip,
    pySplit_eq_singleton '.' fp hfp]
  rfl

end PyCryptoBot

open PyCryptoBot

/-- Claim C2: for every amount and increment string, the quantizers return
`floor(amount * 10^digits) / 10^digits` where `digits` is the number of
decimal places of the increment string (the length of the fractional part
of a well-formed decimal string); the result never exceeds the amount; and
quantizing `0.123456` with increment `0.01` yields `0.12`. -/
theorem marketIncrement_quantize_floor :
    ∀ (amount : ℚ) (inc : String) (product : List (String × String)),
    (product.lookup "base_increment" = some inc →
      CoinbasePro.marketBaseIncrement product amount =
        (⌊amount * 10 ^ nb_digits inc.toList⌋ : ℚ) / 10 ^ nb_digits inc.toList ∧
      CoinbasePro.marketBaseIncrement product amount ≤ amount) ∧
    (product.lookup "quote_increment" = some inc →
      CoinbasePro.marketQuoteIncrement product amount =
        (⌊amount * 10 ^ nb_digits inc.toList⌋ : ℚ) / 10 ^ nb_digits inc.toList ∧
      CoinbasePro.marketQuoteIncrement product amount ≤ amount) ∧
    (∀ ip fp : List Char, '.' ∉ ip → '.' ∉ fp →
      nb_digits (ip ++ '.' :: fp) = fp.length) ∧
    nb_digits ("0.01").toList = 2 ∧
    CoinbasePro.marketQuoteIncrement [("quote_increment", "0.01")]
      (123456 / 1000000) = 12 / 100 := by
  intro amount inc product
  refine ⟨fun h => ?_, fun h => ?_, nb_digits_decimal, by decide, ?_⟩
  · rw [CoinbasePro.marketBaseIncrement, h]
    exact ⟨rfl, floor_quantize_le amount _⟩
  · rw [CoinbasePro.marketQuoteIncrement, h]
    exact ⟨rfl, floor_quantize_le amount _⟩
  · show ((⌊(123456 / 1000000 : ℚ) * 10 ^ nb_digits ("0.01").toList⌋ : ℚ) /
      10 ^ nb_digits ("0.01").toList) = 12 / 100
    have h2 : nb_digits ("0.01").toList = 2 := by decide
    rw [h2]
    have hf : ⌊(123456 / 1000000 : ℚ) * 10 ^ 2⌋ = 12 := by
      rw [Int.floor_eq_iff]
      norm_num
    rw [hf]
    norm_num

/-- Witness for claim C2 at a concrete product response: the base quantizer
at increment `0.01` never exceeds the amount. -/
theorem marketIncrement_quantize_floor_witness :
    CoinbasePro.marketBaseIncrement [("base_increment", "0.01")]
      (123456 / 1000000) ≤ 123456 / 1000000 :=
  ((marketIncrement_quantize_floor (123456 / 1000000) "0.01"
    [("base_increment", "0.01")]).1 rfl).2

/-- Claim C9: when the product response reports no increment column, both
quantizers return the amount unchanged; in particular an amount of `5` with
no increment passes through as `5`. -/
theorem marketIncrement_absent_passthrough :
    ∀ (amount : ℚ) (product : List (String × String)),
    (product.lookup "base_increment" = none →
      CoinbasePro.marketBaseIncrement product amount = amount) ∧
    (product.lookup "quote_increment" = none →
      CoinbasePro.marketQuoteIncrement product amount = amount) ∧
    CoinbasePro.marketBaseIncrement [] 5 = 5 ∧
    CoinbasePro.marketQuoteIncrement [] 5 = 5 := by
  intro amount product
  refine ⟨fun h => ?_, fun h => ?_, rfl, rfl⟩
  · rw [CoinbasePro.marketBaseIncrement, h]
  · rw [CoinbasePro.marketQuoteIncrement, h]

/-- Witness for claim C9: a product response without increment columns
passes a quote amount of `5` through unchanged. -/
theorem marketIncrement_absent_passthrough_witness :
    CoinbasePro.marketQuoteIncrement [("status", "online")] 5 = 5 :=
  (marketIncrement_absent_passthrough 5 [("status", "online")]).2.1 rfl

/-- Claim C5: in the non-open order normalization, every produced record's
price is `executed_value / filled_size` when `filled_size > 0` and `0` when
`filled_size = 0` (the guard prevents any division by zero), and the
concrete pair `filled_size = 2`, `executed_value = 10` prices at `5`. -/
theorem getOrders_average_fill_price :
    ∀ (rows : List CoinbasePro.OrderRow) (r : CoinbasePro.OrderRow),
    r ∈ CoinbasePro.computeOrderPrices rows →
    ((0 < r.filled_size → r.price = r.executed_value / r.filled_size) ∧
     (r.filled_size = 0 → r.price = 0)) ∧
    CoinbasePro.orderPrice 10 2 = 5 := by
  intro rows r hr
  constructor
  · rw [CoinbasePro.computeOrderPrices, List.mem_map] at hr
    obtain ⟨r0, _, hmap⟩ := hr
    subst hmap
    constructor
    · intro hpos
      show CoinbasePro.orderPrice r0.executed_value r0.filled_size =
        r0.executed_value / r0.filled_size
      rw [CoinbasePro.orderPrice, if_pos hpos, mul_comm r0.executed_value 100,
        mul_comm r0.filled_size 100,
        mul_div_mul_left _ _ (by norm_num : (100 : ℚ) ≠ 0)]
    · intro hzero
      show CoinbasePro.orderPrice r0.executed_value r0.filled_size = 0
      rw [CoinbasePro.orderPrice, if_neg]
      rw [hzero]
      exact lt_irrefl 0
  · rw [CoinbasePro.orderPrice, if_pos (by norm_num : (0 : ℚ) < 2)]
    norm_num

/-- Witness for claim C5 at a concrete normalized order list. -/
theorem getOrders_average_fill_price_witness :
    CoinbasePro.orderPrice 10 2 = 5 :=
  (getOrders_average_fill_price
    [⟨"BTC-GBP", "buy", 2, 10, 0, 0⟩]
    ⟨"BTC-GBP", "buy", 2, 10, 0, CoinbasePro.orderPrice 10 2⟩
    (by simp [CoinbasePro.computeOrderPrices])).2

/-- Claim C3: a 401 response whose message is `request timestamp expired`
is classified by the gateway call as the clock-skew case, for either value
of the die-on-error flag: the distinct NTP-hint diagnostic is logged and an
empty result is returned, never the generic client-error branch and never
an exception. -/
theorem authAPI_timestamp_expired_clock_skew :
    ∀ (die_on_api_error : Bool) (api_url method uri : String)
      (resp : CoinbasePro.HTTPResponse),
    (method = "DELETE" ∨ method = "GET" ∨ method = "POST") →
    resp.statusCode = 401 →
    CoinbasePro.respMessage resp = "request timestamp expired" →
    CoinbasePro.authAPI die_on_api_error api_url method uri resp =
      .emptyTimestampExpired
        ("Error: " ++ method ++ " (" ++ toString resp.statusCode ++ ") " ++
          api_url ++ uri ++ " - " ++ CoinbasePro.respMessage resp ++
          " (hint: check your system time is using NTP)") := by
  intro die api_url method uri resp hm h401 hmsg
  rw [CoinbasePro.authAPI, if_neg (not_not_intro hm), if_pos ⟨h401, hmsg⟩]

/-- Witness for claim C3 at a concrete 401 timestamp-expired response, with
the die-on-error flag set. -/
theorem authAPI_timestamp_expired_clock_skew_witness :
    CoinbasePro.authAPI true "https://api.pro.coinbase.com/" "GET" "time"
      ⟨401, [("message", "request timestamp expired")]⟩ =
      .emptyTimestampExpired
        "Error: GET (401) https://api.pro.coinbase.com/time - request timestamp expired (hint: check your system time is using NTP)" :=
  authAPI_timestamp_expired_clock_skew true "https://api.pro.coinbase.com/"
    "GET" "time" ⟨401, [("message", "request timestamp expired")]⟩
    (Or.inr (Or.inl rfl)) rfl rfl

/-- Counterexample to claim C1 as stated: a 401 response whose message is
not the timestamp-expired phrase raises an exception out of the gateway
call even though the die-on-error flag is false — the status code, not only
the flag, decides between aborting and degrading. -/
theorem authAPI_401_overrides_flag_counterexample :
    (CoinbasePro.authAPI false "https://api.pro.coinbase.com/" "GET" "accounts"
        ⟨401, [("message", "Invalid API Key")]⟩ =
      .raised "GET (401) https://api.pro.coinbase.com/accounts - Invalid API Key") ∧
    (401 : Nat) ≠ 200 ∧
    CoinbasePro.respMessage ⟨401, [("message", "Invalid API Key")]⟩ ≠
      "request timestamp expired" :=
  ⟨rfl, by decide, by decide⟩

/-- Claim C1 amended: for every non-200 HTTP response with a status other
than 401, under a false die-on-error flag the gateway call logs the error
and returns an empty result with no exception; transport errors under a
false flag likewise degrade to a logged empty result; but a 401 outside
the timestamp-expired case aborts regardless of the flag, so the flag is
the sole arbiter only for statuses other than 401. -/
theorem authAPI_non200_non401_logs_and_returns_empty :
    ∀ (api_url method uri : String) (resp : CoinbasePro.HTTPResponse)
      (debug : Bool) (err reason : String),
    (method = "DELETE" ∨ method = "GET" ∨ method = "POST") →
    resp.statusCode ≠ 200 → resp.statusCode ≠ 401 →
    (CoinbasePro.authAPI false api_url method uri resp =
      .emptyLoggedError
        ("error: " ++ method ++ " (" ++ toString resp.statusCode ++ ") " ++
          api_url ++ uri ++ " - " ++ CoinbasePro.respMessage resp)) ∧
    (∃ logMsg, CoinbasePro.handle_api_error debug false err reason api_url =
      .emptyResult logMsg) := by
  intro api_url method uri resp debug err reason hm h200 h401
  refine ⟨?_, ?_⟩
  · rw [CoinbasePro.authAPI, if_neg (not_not_intro hm),
      if_neg (fun hc => h401 hc.1), if_pos h200, if_neg]
    simp [h401]
  · rw [CoinbasePro.handle_api_error]
    cases debug <;> simp

/-- Witness for claim C1 (amended) at a concrete 500 response and a
concrete transport error. -/
theorem authAPI_non200_non401_logs_and_returns_empty_witness :
    CoinbasePro.authAPI false "https://api.pro.coinbase.com/" "GET" "fees"
      ⟨500, [("message", "Internal server error")]⟩ =
      .emptyLoggedError
        "error: GET (500) https://api.pro.coinbase.com/fees - Internal server error" :=
  (authAPI_non200_non401_logs_and_returns_empty "https://api.pro.coinbase.com/"
    "GET" "fees" ⟨500, [("message", "Internal server error")]⟩ false
    "distraction" "Timeout" (Or.inr (Or.inl rfl)) (by decide) (by decide)).1

/-- Claim C7: over every newest-first candle response (non-increasing
epochs), the normalizer succeeds with the exact reversal of the input,
the output timestamps are non-decreasing (oldest first), and every output
record carries the requested market and granularity; and over every
newest-first time-indexed order sequence, the `getOrders` reversal step
likewise produces the exact reversal of the (price-normalized) input, its
timestamp sequence is the exact reversal of the input's, and the output
timestamps are non-decreasing. -/
theorem getHistoricalData_reversal_and_order :
    ∀ (market : String) (granularity : Nat) (resp : List CoinbasePro.RawCandle)
      (orders : List (Nat × CoinbasePro.OrderRow)),
    CoinbasePro._isMarketValid market.toList = true →
    granularity ∈ CoinbasePro.SUPPORTED_GRANULARITY →
    List.Chain' (fun a b => b.epoch ≤ a.epoch) resp →
    (CoinbasePro.getHistoricalData market granularity resp =
      .ok (resp.reverse.map (CoinbasePro.toCandleRecord market granularity)) ∧
    List.Chain' (fun a b => a.date ≤ b.date)
      (resp.reverse.map (CoinbasePro.toCandleRecord market granularity)) ∧
    ∀ rec ∈ resp.reverse.map (CoinbasePro.toCandleRecord market granularity),
      rec.market = market ∧ rec.granularity = granularity) ∧
    (List.Chain' (fun a b => b.1 ≤ a.1) orders →
      CoinbasePro.ordersNormalized orders =
        (CoinbasePro.indexedOrderPrices orders).reverse ∧
      (CoinbasePro.ordersNormalized orders).map Prod.fst =
        (orders.map Prod.fst).reverse ∧
      List.Chain' (fun a b => a.1 ≤ b.1)
        (CoinbasePro.ordersNormalized orders)) := by
  intro market granularity resp orders hv hg hdesc
  constructor
  · refine ⟨?_, ?_, ?_⟩
    · rw [CoinbasePro.getHistoricalData, if_neg (not_not_intro hv),
        if_neg (not_not_intro hg)]
    · rw [List.chain'_map, List.chain'_reverse]
      exact hdesc
    · intro rec hrec
      rw [List.mem_map] at hrec
      obtain ⟨r, _, hmap⟩ := hrec
      subst hmap
      exact ⟨rfl, rfl⟩
  · intro hord
    refine ⟨rfl, ?_, ?_⟩
    · rw [CoinbasePro.ordersNormalized, List.map_reverse,
        CoinbasePro.indexedOrderPrices, List.map_map]
      rfl
    · rw [CoinbasePro.ordersNormalized, List.chain'_reverse,
        CoinbasePro.indexedOrderPrices, List.chain'_map]
      exact hord

/-- Witness for claim C7 on a concrete two-candle newest-first response
and a concrete two-row newest-first order sequence. -/
theorem getHistoricalData_reversal_and_order_witness :
    CoinbasePro.getHistoricalData "BTC-GBP" 60
      [⟨120, 1, 2, 1, 2, 3⟩, ⟨60, 1, 2, 1, 2, 3⟩] =
      .ok [⟨60, "BTC-GBP", 60, 1, 2, 1, 2, 3⟩,
        ⟨120, "BTC-GBP", 60, 1, 2, 1, 2, 3⟩] ∧
    (CoinbasePro.ordersNormalized
      [(120, ⟨"BTC-GBP", "buy", 2, 10, 0, 0⟩),
       (60, ⟨"BTC-GBP", "buy", 2, 10, 0, 0⟩)]).map Prod.fst = [60, 120] :=
  have h := getHistoricalData_reversal_and_order "BTC-GBP" 60
    [⟨120, 1, 2, 1, 2, 3⟩, ⟨60, 1, 2, 1, 2, 3⟩]
    [(120, ⟨"BTC-GBP", "buy", 2, 10, 0, 0⟩),
     (60, ⟨"BTC-GBP", "buy", 2, 10, 0, 0⟩)]
    (by decide) (by decide) (by simp)
  ⟨h.1.1, (h.2 (by simp)).2.1⟩

/-- Counterexample to claim C8 as stated: an account whose balance string
`0.00` denotes the value zero is retained by `getAccounts`, because the
filter compares against the exact literal `0.0000000000000000` rather than
the numeric value. -/
theorem getAccounts_zero_encoding_counterexample :
    CoinbasePro.decimalValue? "0.00" = some 0 ∧
    (⟨"acct", "GBP", "0.00", "0.00", "0.00"⟩ : CoinbasePro.Account) ∈
      CoinbasePro.getAccounts (.ok [⟨"acct", "GBP", "0.00", "0.00", "0.00"⟩]) := by
  constructor
  · have h : CoinbasePro.decimalValue? "0.00" =
        some (((0 : Nat) : ℚ) + ((0 : Nat) : ℚ) / 10 ^ 2) := rfl
    rw [h]
    norm_num
  · decide

/-- Claim C8 amended: `getAccounts` retains a row exactly when its balance
field differs from the literal string `0.0000000000000000` (so other
encodings of a zero balance are retained), and in particular every account
whose balance denotes a non-zero value is retained. -/
theorem getAccounts_filter_characterisation :
    ∀ (df : List CoinbasePro.Account) (a : CoinbasePro.Account),
    (a ∈ CoinbasePro.getAccounts (.ok df) ↔
      a ∈ df ∧ a.balance ≠ "0.0000000000000000") ∧
    (∀ q : ℚ, a ∈ df → CoinbasePro.decimalValue? a.balance = some q → q ≠ 0 →
      a ∈ CoinbasePro.getAccounts (.ok df)) := by
  intro df a
  have hchar : a ∈ CoinbasePro.getAccounts (.ok df) ↔
      a ∈ df ∧ a.balance ≠ "0.0000000000000000" := by
    rw [CoinbasePro.getAccounts]
    by_cases hlen : df.length = 0
    · rw [if_pos hlen]
      rw [List.length_eq_zero] at hlen
      subst hlen
      simp
    · rw [if_neg hlen, List.mem_filter]
      simp
  refine ⟨hchar, fun q ha hval hq => ?_⟩
  refine hchar.mpr ⟨ha, fun hbal => hq ?_⟩
  rw [hbal] at hval
  have hz : CoinbasePro.decimalValue? "0.0000000000000000" =
      some (((0 : Nat) : ℚ) + ((0 : Nat) : ℚ) / 10 ^ 16) := rfl
  rw [hz] at hval
  have hq0 : q = ((0 : Nat) : ℚ) + ((0 : Nat) : ℚ) / 10 ^ 16 :=
    (Option.some_injective _ hval).symm
  rw [hq0]
  norm_num

/-- Witness for claim C8 (amended): a concrete account with the non-zero
balance `1.50` is retained. -/
theorem getAccounts_filter_characterisation_witness :
    (⟨"acct", "GBP", "1.50", "1.50", "0"⟩ : CoinbasePro.Account) ∈
      CoinbasePro.getAccounts (.ok [⟨"acct", "GBP", "1.50", "1.50", "0"⟩]) :=
  (getAccounts_filter_characterisation [⟨"acct", "GBP", "1.50", "1.50", "0"⟩]
      ⟨"acct", "GBP", "1.50", "1.50", "0"⟩).2 (3 / 2) (by decide)
    (by
      have h : CoinbasePro.decimalValue? "1.50" =
          some (((1 : Nat) : ℚ) + ((50 : Nat) : ℚ) / 10 ^ 2) := rfl
      rw [h]
      norm_num)
    (by norm_num)

/-- Claim C10: for every syntactically valid market and every funding
amount strictly below the minimum trade amount of 10, `marketBuy` raises
the too-small `ValueError` synchronously — the outcome is the same for
every network oracle, so no order is constructed and no network call is
attempted. -/
theorem marketBuy_minimum_trade_amount :
    ∀ (world : String → String → CoinbasePro.HTTPResponse)
      (die_on_api_error : Bool) (api_url market : String) (quote_quantity : ℚ),
    CoinbasePro._isMarketValid market.toList = true →
    quote_quantity < CoinbasePro.MINIMUM_TRADE_AMOUNT →
    CoinbasePro.marketBuy world die_on_api_error api_url market quote_quantity =
      .valueError "Trade amount is too small (>= 10)." := by
  intro world die api_url market q hv hlt
  rw [CoinbasePro.marketBuy, if_neg (not_not_intro hv), if_pos hlt]

/-- Witness for claim C10 at a concrete market and amount. -/
theorem marketBuy_minimum_trade_amount_witness :
    CoinbasePro.marketBuy (fun _ _ => ⟨200, []⟩) false
      "https://api.pro.coinbase.com/" "BTC-GBP" 5 =
      .valueError "Trade amount is too small (>= 10)." :=
  marketBuy_minimum_trade_amount (fun _ _ => ⟨200, []⟩) false
    "https://api.pro.coinbase.com/" "BTC-GBP" 5 (by decide)
    (by norm_num [CoinbasePro.MINIMUM_TRADE_AMOUNT])

/-- The quote-currency loop agrees with `find?` when some quote currency is
a suffix of the symbol. -/
theorem findQuoteLoop_eq_of_found :
    ∀ (l : List (List Char)) (m qc : List Char),
    l.find? (fun q => q.isSuffixOf m) = some qc →
    Binance.findQuoteLoop l m = (pyReplace qc m, qc) := by
  intro l
  induction l with
  | nil => intro m qc h; simp at h
  | cons q rest ih =>
    intro m qc h
    by_cases hq : q.isSuffixOf m
    · simp only [List.find?_cons, hq] at h
      obtain rfl : q = qc := by simpa using h
      rw [Binance.findQuoteLoop, if_pos hq]
    · rw [Bool.not_eq_true] at hq
      simp only [List.find?_cons, hq] at h
      rw [Binance.findQuoteLoop, if_neg (by simp [hq])]
      exact ih m qc h

/-- The quote-currency loop keeps the BTC/GBP defaults when no quote
currency is a suffix of the symbol. -/
theorem findQuoteLoop_eq_of_not_found :
    ∀ (l : List (List Char)) (m : List Char),
    l.find? (fun q => q.isSuffixOf m) = none →
    Binance.findQuoteLoop l m = (("BTC").toList, ("GBP").toList) := by
  intro l
  induction l with
  | nil => intro m _; rfl
  | cons q rest ih =>
    intro m h
    by_cases hq : q.isSuffixOf m
    · simp only [List.find?_cons, hq] at h
      exact absurd h (by simp)
    · rw [Bool.not_eq_true] at hq
      simp only [List.find?_cons, hq] at h
      rw [Binance.findQuoteLoop, if_neg (by simp [hq])]
      exact ih m h

/-- Counterexample to claim C4 as stated: the grammar-valid symbol `AAAAAA`
has no quote currency of the canonical list as a suffix, yet `parseMarket`
does not fail — the loop's defaults survive and it returns base `BTC`,
quote `GBP`. -/
theorem parseMarket_no_suffix_defaults_counterexample :
    Binance.isMarketValid ("AAAAAA").toList = true ∧
    Binance.chosenQuote ("AAAAAA").toList = none ∧
    Binance.parseMarket ("AAAAAA").toList =
      .ok (("AAAAAA").toList, ("BTC").toList, ("GBP").toList) :=
  ⟨rfl, rfl, rfl⟩

/-- Claim C4 amended: for every symbol accepted by the Binance grammar,
when some quote currency of the priority list is a suffix, the first match
sets the quote and the base is the symbol with every occurrence of that
quote removed, the parse failing with the invalid-market error exactly
when those lengths do not reconstruct the symbol; when no quote currency
is a suffix, the defaults base `BTC`, quote `GBP` are returned instead of
an error whenever the symbol has length 6, and the invalid-market error is
raised only otherwise. -/
theorem parseMarket_characterisation :
    ∀ m : List Char, Binance.isMarketValid m = true →
    (∀ qc, Binance.chosenQuote m = some qc →
      (m.length = (pyReplace qc m).length + qc.length →
        Binance.parseMarket m = .ok (m, pyReplace qc m, qc)) ∧
      (m.length ≠ (pyReplace qc m).length + qc.length →
        Binance.parseMarket m = .error "Binance market error.")) ∧
    (Binance.chosenQuote m = none →
      (m.length = 6 →
        Binance.parseMarket m = .ok (m, ("BTC").toList, ("GBP").toList)) ∧
      (m.length ≠ 6 →
        Binance.parseMarket m = .error "Binance market error.")) := by
  intro m hv
  constructor
  · intro qc hq
    have hloop := findQuoteLoop_eq_of_found Binance.quote_currencies m qc hq
    constructor
    · intro hlen
      rw [Binance.parseMarket, if_neg (not_not_intro hv), hloop,
        if_neg (not_not_intro hlen)]
    · intro hlen
      rw [Binance.parseMarket, if_neg (not_not_intro hv), hloop, if_pos hlen]
  · intro hnone
    have hloop := findQuoteLoop_eq_of_not_found Binance.quote_currencies m hnone
    constructor
    · intro hlen
      rw [Binance.parseMarket, if_neg (not_not_intro hv), hloop,
        if_neg (not_not_intro (by simpa using hlen))]
    · intro hlen
      rw [Binance.parseMarket, if_neg (not_not_intro hv), hloop, if_pos]
      simpa using hlen

/-- Witness for claim C4 (amended): `BTCUSDT` resolves through the first
suffix match to base `BTC`, quote `USDT`. -/
theorem parseMarket_characterisation_witness :
    Binance.parseMarket ("BTCUSDT").toList =
      .ok (("BTCUSDT").toList, ("BTC").toList, ("USDT").toList) := by
  have h := ((parseMarket_characterisation ("BTCUSDT").toList (by decide)).1
    ("USDT").toList (by decide)).1 (by decide)
  have hrepl : pyReplace ("USDT").toList ("BTCUSDT").toList =
      ("BTC").toList := by decide
  rw [hrepl] at h
  exact h

/-- Counterexample to claim C6 as stated: the signer does not attach
exactly the four-header set of signature, timestamp, key and passphrase —
a fifth `Content-Type` header is attached as well. -/
theorem signedHeaders_content_type_counterexample :
    ("Content-Type" ∈
      (CoinbasePro.signedHeaders ⟨"k", "s", "p", "https://api.pro.coinbase.com/"⟩
        "1609459200.0" "GET" "/accounts" "").map Prod.fst) ∧
    "Content-Type" ∉ CoinbasePro.specHeaderNames ∧
    (CoinbasePro.signedHeaders ⟨"k", "s", "p", "https://api.pro.coinbase.com/"⟩
        "1609459200.0" "GET" "/accounts" "").map Prod.fst ≠
      CoinbasePro.specHeaderNames := by
  refine ⟨?_, by decide, ?_⟩
  · show "Content-Type" ∈ ["CB-ACCESS-SIGN", "CB-ACCESS-TIMESTAMP",
      "CB-ACCESS-KEY", "CB-ACCESS-PASSPHRASE", "Content-Type"]
    simp
  · intro h
    have h45 : (4 : Nat) = 5 := by
      have h5 : ((CoinbasePro.signedHeaders
          ⟨"k", "s", "p", "https://api.pro.coinbase.com/"⟩
          "1609459200.0" "GET" "/accounts" "").map Prod.fst).length = 5 := rfl
      rw [h] at h5
      exact h5
    exact absurd h45 (by decide)

/-- Claim C6 amended: for every credentials, timestamp, method, path and
body, the signature is the base64 encoding of the HMAC-SHA256, keyed with
the base64-decoded secret, of the concatenation timestamp, method, path,
body — and the attached header set consists of that signature, the
timestamp, the API key, the passphrase, and additionally a
`Content-Type: application/json` header. -/
theorem signRequest_formula_and_headers :
    ∀ (cred : CoinbasePro.Credentials) (timestamp method path_url body : String),
    CoinbasePro.signRequest cred timestamp method path_url body =
      CoinbasePro.specSignature cred timestamp method path_url body ∧
    CoinbasePro.signedHeaders cred timestamp method path_url body =
      [("CB-ACCESS-SIGN",
        CoinbasePro.specSignature cred timestamp method path_url body),
       ("CB-ACCESS-TIMESTAMP", timestamp),
       ("CB-ACCESS-KEY", cred.api_key),
       ("CB-ACCESS-PASSPHRASE", cred.api_passphrase),
       ("Content-Type", "application/json")] :=
  fun _ _ _ _ _ => ⟨rfl, rfl⟩
